import Mathlib

/-!
# Verification of the kamune daemon bridge

Shallow embedding of `src/bus/src-tauri/src/daemon_bridge.rs` and
`src/bus/src-tauri/src/main.rs`: the wire codec (serde JSON model),
binary discovery, the process supervisor state, the response correlator,
and the stdout reader loop, together with theorems settling the frozen
claims about them.
-/

namespace Kamune

/-! ## JSON values

Model of `serde_json::Value`.  Numbers are modelled as integers only
(no message in this layer carries fractional numbers); `\uXXXX` escapes
are not modelled by the parser. -/

inductive Json where
  | null
  | bool (b : Bool)
  | num (n : Int)
  | str (s : String)
  | arr (xs : List Json)
  | obj (fields : List (String × Json))

/-- Model of the `DaemonError` enum (`daemon_bridge.rs` lines 17-35).
Payloads that are `std::io::Error` / `serde_json::Error` values are
modelled by their display strings. -/
inductive DaemonError where
  | NotRunning
  | AlreadyRunning
  | SpawnError (e : String)
  | BinaryNotFound (s : String)
  | SendError (s : String)
  | JsonError (s : String)
  | Timeout
  | daemonError (s : String)
deriving DecidableEq

/-- `Display` strings produced by the `thiserror` attributes on `DaemonError`. -/
def DaemonError.message : DaemonError → String
  | .NotRunning => "daemon not running"
  | .AlreadyRunning => "daemon already running"
  | .SpawnError e => "failed to spawn daemon: " ++ e
  | .BinaryNotFound s => "daemon binary not found: " ++ s
  | .SendError s => "failed to send command: " ++ s
  | .JsonError s => "failed to parse JSON: " ++ s
  | .Timeout => "command timeout"
  | .daemonError s => "daemon error: " ++ s

/-- Model of `DaemonCommand` (`daemon_bridge.rs` lines 38-45). -/
structure DaemonCommand where
  msg_type : String
  cmd : String
  id : String
  params : Json

/-- `DaemonCommand::new` (lines 48-55).  The `uuid::Uuid::new_v4()`
call is external randomness; the freshly generated identifier is
modelled as the explicit argument `freshId`. -/
def DaemonCommand.new (cmd : String) (params : Json) (freshId : String) : DaemonCommand :=
  { msg_type := "cmd", cmd := cmd, id := freshId, params := params }

/-- Model of `DaemonEvent` (`daemon_bridge.rs` lines 59-67).
`id` is `Option<String>` with `#[serde(default)]`. -/
structure DaemonEvent where
  msg_type : String
  evt : String
  id : Option String
  data : Json

/-! ## Wire codec: serialization

Derived `Serialize` for `DaemonCommand` emits the fields in declaration
order with `msg_type` renamed to `"type"`. -/

def toJsonCommand (c : DaemonCommand) : Json :=
  .obj [("type", .str c.msg_type), ("cmd", .str c.cmd),
        ("id", .str c.id), ("params", c.params)]

/-! ## Wire codec: deserialization

Model of the derived `Deserialize` for `DaemonEvent` applied to a JSON
object (the map encoding used by the wire format of spec §6): fields are
consumed in input order, a duplicate known field is an error, unknown
fields are ignored, `id` accepts a string or `null` and defaults to
`None` when absent, and after the map is exhausted the required fields
are checked in declaration order (`type`, then `evt`, then `data`). -/

def eventFieldsLoop :
    List (String × Json) → Option String → Option String →
    Option (Option String) → Option Json → Except String DaemonEvent
  | [], mt?, ev?, id?, da? =>
    match mt? with
    | none => .error "missing field type"
    | some mt =>
      match ev? with
      | none => .error "missing field evt"
      | some ev =>
        match da? with
        | none => .error "missing field data"
        | some da => .ok { msg_type := mt, evt := ev, id := id?.getD none, data := da }
  | (k, v) :: rest, mt?, ev?, id?, da? =>
    if k = "type" then
      match mt? with
      | some _ => .error "duplicate field type"
      | none =>
        match v with
        | .str s => eventFieldsLoop rest (some s) ev? id? da?
        | _ => .error "invalid type for field type"
    else if k = "evt" then
      match ev? with
      | some _ => .error "duplicate field evt"
      | none =>
        match v with
        | .str s => eventFieldsLoop rest mt? (some s) id? da?
        | _ => .error "invalid type for field evt"
    else if k = "id" then
      match id? with
      | some _ => .error "duplicate field id"
      | none =>
        match v with
        | .null => eventFieldsLoop rest mt? ev? (some none) da?
        | .str s => eventFieldsLoop rest mt? ev? (some (some s)) da?
        | _ => .error "invalid type for field id"
    else if k = "data" then
      match da? with
      | some _ => .error "duplicate field data"
      | none => eventFieldsLoop rest mt? ev? id? (some v)
    else
      eventFieldsLoop rest mt? ev? id? da?

/-- Deserialize a JSON value as a `DaemonEvent`. -/
def fromJsonEvent : Json → Except String DaemonEvent
  | .obj fields => eventFieldsLoop fields none none none none
  | _ => .error "invalid type: expected object"

/-! ## Wire codec: text layer

Model of `serde_json::to_string` / `serde_json::from_str` for the map
encoding: a printer and a recursive-descent parser over character
lists.  The parser carries fuel for termination; `parseJsonString`
supplies more fuel than any input can consume. -/

def isJsonWs (c : Char) : Bool :=
  decide (c.toNat = 32 ∨ c.toNat = 9 ∨ c.toNat = 10 ∨ c.toNat = 13)

def skipWs : List Char → List Char
  | [] => []
  | c :: cs => if isJsonWs c then skipWs cs else c :: cs

/-- Translate a character following a backslash in a JSON string
(`\uXXXX` escapes are not modelled). -/
def escCharValue (e : Char) : Option Char :=
  if e = '"' ∨ e = '\\' ∨ e = '/' then some e
  else if e = 'n' then some '\n'
  else if e = 't' then some '\t'
  else if e = 'r' then some '\r'
  else if e = 'b' then some (Char.ofNat 8)
  else if e = 'f' then some (Char.ofNat 12)
  else none

/-- Parse the body of a JSON string after the opening quote. -/
def parseStringChars : List Char → Except String (List Char × List Char)
  | [] => .error "unterminated string"
  | '"' :: cs => .ok ([], cs)
  | '\\' :: [] => .error "unterminated string escape"
  | '\\' :: e :: cs =>
    match escCharValue e with
    | some ch =>
      match parseStringChars cs with
      | .ok (s, r) => .ok (ch :: s, r)
      | .error msg => .error msg
    | none => .error "unsupported escape"
  | c :: cs =>
    if c.toNat < 32 then .error "control character in string"
    else
      match parseStringChars cs with
      | .ok (s, r) => .ok (c :: s, r)
      | .error msg => .error msg

def stripLit : List Char → List Char → Option (List Char)
  | [], cs => some cs
  | _ :: _, [] => none
  | p :: ps, c :: cs => if c = p then stripLit ps cs else none

def digitsToNat : List Char → Nat → Nat
  | [], acc => acc
  | c :: cs, acc => digitsToNat cs (acc * 10 + (c.toNat - 48))

/-- Parse an integer JSON number (fractional/exponent forms are not
modelled: no message of this layer carries them). -/
def parseNumber (cs : List Char) : Except String (Json × List Char) :=
  let (neg, cs1) :=
    match cs with
    | '-' :: rest => (true, rest)
    | _ => (false, cs)
  let ds := cs1.takeWhile (fun c => c.isDigit)
  let rest := cs1.dropWhile (fun c => c.isDigit)
  if ds.isEmpty then .error "invalid number"
  else
    match rest with
    | c :: _ =>
      if c == '.' || c == 'e' || c == 'E' then
        .error "non-integer number not modelled"
      else
        .ok (.num (if neg then -(digitsToNat ds 0 : Int) else (digitsToNat ds 0 : Int)), rest)
    | [] => .ok (.num (if neg then -(digitsToNat ds 0 : Int) else (digitsToNat ds 0 : Int)), [])

mutual

def parseVal (fuel : Nat) (input : List Char) : Except String (Json × List Char) :=
  match fuel, input with
  | 0, _ => .error "input too deeply nested"
  | _ + 1, [] => .error "unexpected end of input"
  | f + 1, c :: cs =>
    if c = 'n' then
      match stripLit ['u', 'l', 'l'] cs with
      | some rest => .ok (.null, rest)
      | none => .error "invalid literal"
    else if c = 't' then
      match stripLit ['r', 'u', 'e'] cs with
      | some rest => .ok (.bool true, rest)
      | none => .error "invalid literal"
    else if c = 'f' then
      match stripLit ['a', 'l', 's', 'e'] cs with
      | some rest => .ok (.bool false, rest)
      | none => .error "invalid literal"
    else if c = '"' then
      match parseStringChars cs with
      | .ok (s, rest) => .ok (.str (String.mk s), rest)
      | .error msg => .error msg
    else if c = '[' then
      match skipWs cs with
      | ']' :: rest => .ok (.arr [], rest)
      | cs1 => parseArrItems f cs1 []
    else if c = '{' then
      match skipWs cs with
      | '}' :: rest => .ok (.obj [], rest)
      | cs1 => parseObjItems f cs1 []
    else if c == '-' || c.isDigit then
      parseNumber (c :: cs)
    else
      .error "unexpected character"

def parseArrItems (fuel : Nat) (input : List Char) (acc : List Json) :
    Except String (Json × List Char) :=
  match fuel with
  | 0 => .error "input too deeply nested"
  | f + 1 =>
    match parseVal f input with
    | .error msg => .error msg
    | .ok (v, rest) =>
      match skipWs rest with
      | ',' :: rest1 => parseArrItems f (skipWs rest1) (acc ++ [v])
      | ']' :: rest1 => .ok (.arr (acc ++ [v]), rest1)
      | _ => .error "expected comma or bracket in array"

def parseObjItems (fuel : Nat) (input : List Char) (acc : List (String × Json)) :
    Except String (Json × List Char) :=
  match fuel with
  | 0 => .error "input too deeply nested"
  | f + 1 =>
    match skipWs input with
    | '"' :: cs1 =>
      match parseStringChars cs1 with
      | .error msg => .error msg
      | .ok (k, rest) =>
        match skipWs rest with
        | ':' :: rest1 =>
          match parseVal f (skipWs rest1) with
          | .error msg => .error msg
          | .ok (v, rest2) =>
            match skipWs rest2 with
            | ',' :: rest3 => parseObjItems f rest3 (acc ++ [(String.mk k, v)])
            | '}' :: rest3 => .ok (.obj (acc ++ [(String.mk k, v)]), rest3)
            | _ => .error "expected comma or brace in object"
        | _ => .error "expected colon after object key"
    | _ => .error "expected object key"

end

/-- Parse one line of text into a JSON value (model of the parsing
stage of `serde_json::from_str`). -/
def parseJsonString (s : String) : Except String Json :=
  match parseVal (2 * s.length + 8) (skipWs s.data) with
  | .error msg => .error msg
  | .ok (j, rest) =>
    match skipWs rest with
    | [] => .ok j
    | _ => .error "trailing characters"

/-- `serde_json::from_str::<DaemonEvent>` on one line
(`daemon_bridge.rs` line 244). -/
def fromStrEvent (s : String) : Except String DaemonEvent :=
  match parseJsonString s with
  | .error msg => .error msg
  | .ok j => fromJsonEvent j

def hexDigit (n : Nat) : Char :=
  if n < 10 then Char.ofNat (48 + n) else Char.ofNat (87 + n)

/-- JSON string escaping as performed by `serde_json`. -/
def escapeChar (c : Char) : List Char :=
  if c = '"' then ['\\', '"']
  else if c = '\\' then ['\\', '\\']
  else if c = '\n' then ['\\', 'n']
  else if c = '\t' then ['\\', 't']
  else if c = '\r' then ['\\', 'r']
  else if c = Char.ofNat 8 then ['\\', 'b']
  else if c = Char.ofNat 12 then ['\\', 'f']
  else if c.toNat < 32 then ['\\', 'u', '0', '0', hexDigit (c.toNat / 16), hexDigit (c.toNat % 16)]
  else [c]

def escapeString (s : String) : String :=
  String.mk (s.data.map escapeChar).flatten

mutual

def jsonToString : Json → String
  | .null => "null"
  | .bool true => "true"
  | .bool false => "false"
  | .num n => toString n
  | .str s => "\"" ++ escapeString s ++ "\""
  | .arr xs => "[" ++ jsonItemsToString xs ++ "]"
  | .obj fs => "\x7b" ++ jsonFieldsToString fs ++ "\x7d"

def jsonItemsToString : List Json → String
  | [] => ""
  | [x] => jsonToString x
  | x :: y :: xs => jsonToString x ++ "," ++ jsonItemsToString (y :: xs)

def jsonFieldsToString : List (String × Json) → String
  | [] => ""
  | [(k, v)] => "\"" ++ escapeString k ++ "\":" ++ jsonToString v
  | (k, v) :: f :: fs =>
    "\"" ++ escapeString k ++ "\":" ++ jsonToString v ++ "," ++ jsonFieldsToString (f :: fs)

end

/-- `serde_json::to_string(&command)` (`daemon_bridge.rs` line 309). -/
def commandToString (c : DaemonCommand) : String :=
  jsonToString (toJsonCommand c)

/-! ## Binary discovery (`daemon_bridge.rs` lines 94-165)

The `cfg(target_os/target_arch)` compile-time conditionals are modelled
by explicit `OS`/`Arch` parameters; `std::env::current_exe()?.parent()`
is the `exeDir` parameter (`none` covering both failure paths); the
filesystem is a map from path to the kind of entity found there.
`PathBuf::join` is modelled with a `/` separator. -/

inductive OS where
  | windows
  | macos
  | linux
  | otherOS
deriving DecidableEq

inductive Arch where
  | x86_64
  | aarch64
  | otherArch
deriving DecidableEq

inductive FileKind where
  | file
  | dir
  | otherKind
deriving DecidableEq

def pathJoin (a b : String) : String := a ++ "/" ++ b

/-- `binary_name` (lines 114-117). -/
def binaryName : OS → String
  | .windows => "daemon.exe"
  | _ => "daemon"

/-- `arch_binary` (lines 119-137), falling back to `binary_name` for
unlisted combinations. -/
def archBinary : OS → Arch → String
  | .macos, .aarch64 => "daemon-darwin-arm64"
  | .macos, .x86_64 => "daemon-darwin-amd64"
  | .linux, .x86_64 => "daemon-linux-amd64"
  | .linux, .aarch64 => "daemon-linux-arm64"
  | .windows, .x86_64 => "daemon-windows-amd64.exe"
  | os, _ => binaryName os

/-- `get_binary_candidates` (lines 110-165). -/
def getBinaryCandidates (resourceDir : Option String) (os : OS) (arch : Arch)
    (exeDir : Option String) : List String :=
  let bn := binaryName os
  let ab := archBinary os arch
  (match resourceDir with
   | some rd =>
     [pathJoin rd bn, pathJoin rd ab,
      pathJoin (pathJoin rd "binaries") bn, pathJoin (pathJoin rd "binaries") ab]
   | none => []) ++
  (match exeDir with
   | some ed => [pathJoin ed bn, pathJoin ed ab]
   | none => []) ++
  [bn, ab] ++
  [pathJoin "../../dist" ab, pathJoin "../dist" ab, pathJoin "dist" ab]

/-- `Path::exists`: true when the path points at any existing entity
(regular file, directory, or other), following symlinks. -/
def pathExists (fs : String → Option FileKind) (p : String) : Bool :=
  (fs p).isSome

/-- The candidate loop of `find_daemon_binary` (lines 98-107). -/
def findFirstExisting (fs : String → Option FileKind) : List String → Except DaemonError String
  | [] => .error (.BinaryNotFound "daemon binary not found in any expected location")
  | p :: rest => if pathExists fs p then .ok p else findFirstExisting fs rest

/-- `DaemonBridge::find_daemon_binary` (lines 94-108). -/
def findDaemonBinary (fs : String → Option FileKind) (resourceDir : Option String)
    (os : OS) (arch : Arch) (exeDir : Option String) : Except DaemonError String :=
  findFirstExisting fs (getBinaryCandidates resourceDir os arch exeDir)

/-- Modelled from the spec: the claim's reading of `find_daemon_binary`,
in which a candidate is accepted only when it "exists as a regular
file".  Kept distinct from `findDaemonBinary` (which accepts any
existing path) so the two can be compared. -/
def findFirstRegularFile (fs : String → Option FileKind) : List String → Except DaemonError String
  | [] => .error (.BinaryNotFound "daemon binary not found in any expected location")
  | p :: rest => if fs p = some .file then .ok p else findFirstRegularFile fs rest

/-- Modelled from the spec: `find_daemon_binary` as the claim states it
(first candidate existing as a regular file). -/
def findDaemonBinarySpecFile (fs : String → Option FileKind) (resourceDir : Option String)
    (os : OS) (arch : Arch) (exeDir : Option String) : Except DaemonError String :=
  findFirstRegularFile fs (getBinaryCandidates resourceDir os arch exeDir)

/-! ## Response correlator

`pending_responses : HashMap<String, oneshot::Sender<...>>` is modelled
as an association list with unique keys; a `oneshot::Sender` is
identified with the natural number naming the caller that holds the
matching receiver.  A value sent on caller `c`'s channel (or returned
to `c` directly, for timeouts) is recorded as an `outcome` entry. -/

def removeKey (i : String) (l : List (String × Nat)) : List (String × Nat) :=
  l.filter (fun x => decide (x.1 ≠ i))

/-- `HashMap::insert` (replaces any existing binding for the key). -/
def insertPending (i : String) (c : Nat) (l : List (String × Nat)) : List (String × Nat) :=
  (i, c) :: removeKey i l

/-- `HashMap::get`/`remove` lookup. -/
def lookupPending (i : String) (l : List (String × Nat)) : Option Nat :=
  (l.find? (fun x => decide (x.1 = i))).map Prod.snd

/-- State of the correlation machinery: the pending-response table and
the results the callers' awaits have resolved with. -/
structure CorrState where
  pending : List (String × Nat)
  outcome : List (Nat × Except DaemonError DaemonEvent)

/-- The body of the reply-correlation block of `read_stdout`
(`daemon_bridge.rs` lines 246-261) for one decoded event: when the
event carries a non-empty id, the entry for that id is removed under a
`try_write` lock (whose success is the `lockOk` oracle) and, when one
was present, the event is delivered on that caller's channel. -/
def handleEvent (lockOk : Bool) (e : DaemonEvent)
    (pending : List (String × Nat))
    (outcome : List (Nat × Except DaemonError DaemonEvent)) :
    List (String × Nat) × List (Nat × Except DaemonError DaemonEvent) :=
  match e.id with
  | none => (pending, outcome)
  | some i =>
    if i = "" then (pending, outcome)
    else
      match (if lockOk then lookupPending i pending else none) with
      | none => (pending, outcome)
      | some c => (removeKey i pending, outcome ++ [(c, Except.ok e)])

/-- One interleaved step of the concurrent system acting on the
pending-response table:
* `register c i` — the registration phase of `send_command_async`
  (lines 329-340) performed by caller `c` for command id `i`;
* `reply e lockOk` — the stdout reader handling a decoded event
  (lines 246-261);
* `timeout c i` — the `Err(_)` timeout branch of `send_command_async`
  (lines 346-352): the entry is removed and the caller returns
  `Timeout`;
* `sweep lockOk` — the shutdown-monitor thread body (lines 216-221):
  under a `try_write` lock, every entry is drained and failed with
  `NotRunning`. -/
inductive Action where
  | register (caller : Nat) (id : String)
  | reply (e : DaemonEvent) (lockOk : Bool)
  | timeout (caller : Nat) (id : String)
  | sweep (lockOk : Bool)

def step (s : CorrState) : Action → CorrState
  | .register c i => ⟨insertPending i c s.pending, s.outcome⟩
  | .reply e lockOk =>
    let po := handleEvent lockOk e s.pending s.outcome
    ⟨po.1, po.2⟩
  | .timeout c i =>
    ⟨removeKey i s.pending, s.outcome ++ [(c, Except.error DaemonError.Timeout)]⟩
  | .sweep lockOk =>
    if lockOk then
      ⟨[], s.outcome ++ s.pending.map (fun x => (x.2, Except.error DaemonError.NotRunning))⟩
    else s

def run (s : CorrState) (tr : List Action) : CorrState :=
  tr.foldl step s

/-- `tokio::time::timeout(Duration::from_secs(30), rx)` — the await
deadline of `send_command_async` (line 343), in seconds. -/
def awaitTimeoutSecs : Nat := 30

/-- The three ways the `rx` wait of `send_command_async` can finish
(lines 343-353): a value arrives, the channel closes without a value,
or the deadline elapses. -/
inductive WaitOutcome where
  | received (r : Except DaemonError DaemonEvent)
  | closed
  | timedOut

/-- What `send_command_async` returns for each wait outcome
(lines 344-352). -/
def awaitResult : WaitOutcome → Except DaemonError DaemonEvent
  | .received r => r
  | .closed => .error (DaemonError.SendError "response channel closed")
  | .timedOut => .error DaemonError.Timeout

/-! ## Stdout reader loop (`daemon_bridge.rs` lines 228-283)

`reader.lines()` is modelled as a list of read results, each paired
with the success of the `try_write` lock acquisition its event (if any)
would observe.  The event sink (`event_tx`) is an unbounded channel
whose receiver is either held (`sinkOpen`) or dropped. -/

inductive ReadResult where
  | ok (line : String)
  | ioError

structure ReaderState where
  pending : List (String × Nat)
  delivered : List (Nat × Except DaemonError DaemonEvent)
  sinkOpen : Bool
  sink : List DaemonEvent
  decodeFailures : Nat

/-- `DaemonBridge::read_stdout`: skip empty lines, decode, correlate,
forward every decoded event to the sink (breaking if the sink is
closed), log-and-skip decode failures, stop at the first read error. -/
def readStdout : List (ReadResult × Bool) → ReaderState → ReaderState
  | [], st => st
  | (.ioError, _) :: _, st => st
  | (.ok l, lockOk) :: rest, st =>
    if l = "" then readStdout rest st
    else
      match fromStrEvent l with
      | .ok e =>
        let po := handleEvent lockOk e st.pending st.delivered
        if st.sinkOpen then
          readStdout rest
            { st with pending := po.1, delivered := po.2, sink := st.sink ++ [e] }
        else
          { st with pending := po.1, delivered := po.2 }
      | .error _ =>
        readStdout rest { st with decodeFailures := st.decodeFailures + 1 }

/-- The successfully decoded events among the lines the reader loop
processes before its first read error, in order. -/
def decodedEvents : List (ReadResult × Bool) → List DaemonEvent
  | [] => []
  | (.ioError, _) :: _ => []
  | (.ok l, _) :: rest =>
    if l = "" then decodedEvents rest
    else
      match fromStrEvent l with
      | .ok e => e :: decodedEvents rest
      | .error _ => decodedEvents rest

/-! ## Process supervisor (`daemon_bridge.rs` lines 73-91, 168-226,
357-398) and the facade (`main.rs` lines 63-113)

A `Child` handle is identified with the pid of the launched process.
`spawned` records every process ever launched by the bridge, so that
"does not launch a second process" is visible in the state.  The
`pending`/`outcome` components are the same correlation data as in
`CorrState`. -/

structure BridgeState where
  child : Option Nat
  stdin : Option Nat
  pending : List (String × Nat)
  outcome : List (Nat × Except DaemonError DaemonEvent)
  shutdownTx : Option Unit
  spawned : List Nat

/-- `DaemonBridge::new` (lines 83-91). -/
def BridgeState.new : BridgeState :=
  ⟨none, none, [], [], none, []⟩

/-- `DaemonBridge::spawn` (lines 168-226): fails with `AlreadyRunning`
when a child is already owned; otherwise launches the process (the OS
outcome of `Command::spawn` is the `osResult` argument: the new pid, or
the OS error wrapped into `SpawnError`), capturing the handles and
installing the shutdown sender.  The reader threads and the monitor
thread it starts are modelled separately (`readStdout`,
`monitorSweep`). -/
def spawnBridge (s : BridgeState) (osResult : Except String Nat) :
    Except DaemonError Unit × BridgeState :=
  match s.child with
  | some _ => (.error DaemonError.AlreadyRunning, s)
  | none =>
    match osResult with
    | .error e => (.error (DaemonError.SpawnError e), s)
    | .ok pid =>
      (.ok (), { s with child := some pid, stdin := some pid,
                        shutdownTx := some (), spawned := s.spawned ++ [pid] })

/-- The body of the shutdown-monitor thread (lines 213-222).  Because
the thread's first statement `let _ = shutdown_rx;` drops the receiver
at once, this body runs immediately after `spawn`, not at teardown: it
drains whatever the table holds at that moment (under a best-effort
`try_write` whose success is `lockOk`), failing each drained entry with
`NotRunning`. -/
def monitorSweep (lockOk : Bool) (s : BridgeState) : BridgeState :=
  if lockOk then
    { s with pending := [],
             outcome := s.outcome ++ s.pending.map (fun x => (x.2, Except.error DaemonError.NotRunning)) }
  else s

/-- `DaemonBridge::is_running` (lines 357-372).  The outcome of
`child.try_wait()` is the `pr` argument. -/
inductive PollResult where
  | exited
  | stillRunning
  | pollError
deriving DecidableEq

def isRunning (s : BridgeState) (pr : PollResult) : Bool × BridgeState :=
  match s.child with
  | some _ =>
    match pr with
    | .exited => (false, { s with child := none, stdin := none })
    | .stillRunning => (true, s)
    | .pollError => (false, s)
  | none => (false, s)

/-- `DaemonBridge::stop` (lines 375-398): best-effort `shutdown`
command (failure ignored, no bridge-state effect), 500 ms grace sleep,
forced kill and wait, then clearing of `child`, `stdin` and
`shutdown_tx`.  `pending_responses` and the callers' outcomes are not
touched. -/
def stopBridge (s : BridgeState) : Except DaemonError Unit × BridgeState :=
  (.ok (), { s with child := none, stdin := none, shutdownTx := none })

/-- Model of `CommandResponse` (`main.rs` lines 37-58). -/
structure CommandResponse where
  success : Bool
  data : Option Json
  error : Option String

def CommandResponse.mkSuccess (d : Json) : CommandResponse :=
  ⟨true, some d, none⟩

def CommandResponse.mkError (m : String) : CommandResponse :=
  ⟨false, none, some m⟩

/-- The `start_daemon` Tauri command (`main.rs` lines 63-113): checks
`is_running`, resolves the binary, then spawns (the event-channel
plumbing has no effect on the modelled state). -/
def startDaemon (s : BridgeState) (pr : PollResult)
    (fs : String → Option FileKind) (resourceDir : Option String)
    (os : OS) (arch : Arch) (exeDir : Option String)
    (osResult : Except String Nat) : CommandResponse × BridgeState :=
  let rs := isRunning s pr
  if rs.1 then (CommandResponse.mkError "Daemon is already running", rs.2)
  else
    match findDaemonBinary fs resourceDir os arch exeDir with
    | .error e =>
      (CommandResponse.mkError ("Daemon binary not found: " ++ e.message), rs.2)
    | .ok path =>
      match spawnBridge rs.2 osResult with
      | (.error e, s2) =>
        (CommandResponse.mkError ("Failed to spawn daemon: " ++ e.message), s2)
      | (.ok _, s2) =>
        (CommandResponse.mkSuccess (.obj [("status", .str "started"), ("path", .str path)]), s2)

/-! ## Correlation lemmas -/

lemma mem_removeKey {i : String} {l : List (String × Nat)} {x : String × Nat}
    (h : x ∈ removeKey i l) : x ∈ l :=
  List.mem_of_mem_filter h

lemma lookupPending_eq_none {i : String} {l : List (String × Nat)} :
    lookupPending i l = none ↔ ∀ x ∈ l, x.1 ≠ i := by
  simp [lookupPending, List.find?_eq_none]

lemma lookupPending_some_mem {i : String} {l : List (String × Nat)} {c : Nat}
    (h : lookupPending i l = some c) : (i, c) ∈ l := by
  unfold lookupPending at h
  cases hf : List.find? (fun x => decide (x.1 = i)) l with
  | none => rw [hf] at h; simp at h
  | some x =>
    rw [hf] at h
    have hx : x.1 = i := by simpa using List.find?_some hf
    have hmem : x ∈ l := List.mem_of_find?_eq_some hf
    have hc : x.2 = c := by simpa using h
    have hxe : x = (i, c) := by cases x; simp_all
    rw [← hxe]; exact hmem

/-- The correlation invariant: every pending entry binds a caller to
its own command id, and every reply a caller's await has resolved with
carries that caller's command id. -/
def Coherent (cmdId : Nat → String) (s : CorrState) : Prop :=
  (∀ x ∈ s.pending, x.1 = cmdId x.2) ∧
  (∀ c e, (c, Except.ok e) ∈ s.outcome → e.id = some (cmdId c))

lemma coherent_step (cmdId : Nat → String) (s : CorrState) (a : Action)
    (hs : Coherent cmdId s)
    (ha : ∀ c i, a = Action.register c i → i = cmdId c) :
    Coherent cmdId (step s a) := by
  obtain ⟨hp, ho⟩ := hs
  cases a with
  | register c i =>
    have hi : i = cmdId c := ha c i rfl
    refine ⟨?_, ho⟩
    intro x hx
    rcases List.mem_cons.mp hx with hx | hx
    · rw [hx]; exact hi
    · exact hp x (mem_removeKey hx)
  | reply e lockOk =>
    simp only [step, handleEvent]
    cases he : e.id with
    | none => exact ⟨hp, ho⟩
    | some i =>
      by_cases hi : i = ""
      · simp only [hi, if_pos rfl]
        exact ⟨hp, ho⟩
      · simp only [if_neg hi]
        cases hl : (if lockOk then lookupPending i s.pending else none) with
        | none => exact ⟨hp, ho⟩
        | some c =>
          have hlook : lookupPending i s.pending = some c := by
            cases lockOk with
            | true => simpa using hl
            | false => simp at hl
          have hic : i = cmdId c := hp (i, c) (lookupPending_some_mem hlook)
          constructor
          · intro x hx
            exact hp x (mem_removeKey hx)
          · intro c' e' hmem
            rcases List.mem_append.mp hmem with hmem | hmem
            · exact ho c' e' hmem
            · rcases List.mem_singleton.mp hmem with h
              have hc : c' = c := congrArg Prod.fst h
              have heq : Except.ok e' = (Except.ok e : Except DaemonError DaemonEvent) :=
                congrArg Prod.snd h
              have he' : e' = e := by injection heq
              rw [hc, he', he, hic]
  | timeout c i =>
    constructor
    · intro x hx
      exact hp x (mem_removeKey hx)
    · intro c' e' hmem
      rcases List.mem_append.mp hmem with hmem | hmem
      · exact ho c' e' hmem
      · rcases List.mem_singleton.mp hmem with h
        have : (Except.error DaemonError.Timeout : Except DaemonError DaemonEvent)
            = Except.ok e' := (congrArg Prod.snd h).symm
        cases this
  | sweep lockOk =>
    cases lockOk with
    | false => exact ⟨hp, ho⟩
    | true =>
      constructor
      · intro x hx
        simp [step] at hx
      · intro c' e' hmem
        simp only [step, if_pos rfl] at hmem
        rcases List.mem_append.mp hmem with hmem | hmem
        · exact ho c' e' hmem
        · rcases List.mem_map.mp hmem with ⟨x, _, hxe⟩
          have : (Except.error DaemonError.NotRunning : Except DaemonError DaemonEvent)
              = Except.ok e' := congrArg Prod.snd hxe
          cases this

lemma coherent_run (cmdId : Nat → String) (tr : List Action) (s : CorrState)
    (hs : Coherent cmdId s)
    (htr : ∀ c i, Action.register c i ∈ tr → i = cmdId c) :
    Coherent cmdId (run s tr) := by
  induction tr generalizing s with
  | nil => exact hs
  | cons a tl ih =>
    have hstep : Coherent cmdId (step s a) :=
      coherent_step cmdId s a hs
        (fun c i hai => htr c i (by rw [hai]; exact List.mem_cons_self _ _))
    exact ih (step s a) hstep (fun c i hmem => htr c i (List.mem_cons_of_mem _ hmem))

/-- C1: under any interleaving in which each caller registers its own
(distinct) command id, a caller's await resolves only with a reply
event whose id is that caller's command id, never a reply bearing a
different caller's id. -/
theorem await_resolves_only_matching_id
    (cmdId : Nat → String) (hinj : Function.Injective cmdId)
    (tr : List Action)
    (hreg : ∀ c i, Action.register c i ∈ tr → i = cmdId c)
    (c : Nat) (e : DaemonEvent)
    (hdeliv : (c, Except.ok e) ∈ (run ⟨[], []⟩ tr).outcome) :
    e.id = some (cmdId c) ∧ ∀ c', c' ≠ c → e.id ≠ some (cmdId c') := by
  have hcoh : Coherent cmdId (run ⟨[], []⟩ tr) := by
    refine coherent_run cmdId tr ⟨[], []⟩ ⟨?_, ?_⟩ hreg
    · intro x hx; cases hx
    · intro c' e' hmem; cases hmem
  have h1 : e.id = some (cmdId c) := hcoh.2 c e hdeliv
  refine ⟨h1, ?_⟩
  intro c' hne heq
  rw [h1] at heq
  have : cmdId c = cmdId c' := by injection heq
  exact hne (hinj this.symm)

/-- Concrete id assignment for the C1 witness: caller `n` owns the id
made of `n + 1` copies of `x`. -/
def cmdIdW (n : Nat) : String := String.mk (List.replicate (n + 1) 'x')

def evW : DaemonEvent := ⟨"evt", "dial_result", some "xx", Json.null⟩

/-- Two callers register their distinct ids, then the reply for the
second id arrives. -/
def trW : List Action :=
  [.register 0 "x", .register 1 "xx", .reply evW true]

/-- Witness for C1 at the concrete two-caller trace `trW`. -/
theorem await_resolves_only_matching_id_witness :
    evW.id = some (cmdIdW 1) ∧ ∀ c', c' ≠ 1 → evW.id ≠ some (cmdIdW c') := by
  refine await_resolves_only_matching_id cmdIdW ?_ trW ?_ 1 evW ?_
  · intro a b hab
    have hlen := congrArg String.length hab
    simpa [cmdIdW, String.length] using hlen
  · intro c i hmem
    simp only [trW, List.mem_cons, List.not_mem_nil, or_false] at hmem
    rcases hmem with h | h | h
    · cases h; rfl
    · cases h; rfl
    · cases h
  · show (1, Except.ok evW) ∈ (run ⟨[], []⟩ trW).outcome
    simp [run, trW, step, handleEvent, insertPending, removeKey, lookupPending, evW]

/-! ## Lemmas for the timeout/late-reply claim -/

lemma lookupPending_removeKey_self (i : String) (l : List (String × Nat)) :
    lookupPending i (removeKey i l) = none := by
  rw [lookupPending_eq_none]
  intro x hx
  have := List.of_mem_filter hx
  simpa using this

lemma handleEvent_pending_subset (lockOk : Bool) (e : DaemonEvent)
    (p : List (String × Nat)) (o : List (Nat × Except DaemonError DaemonEvent))
    {x : String × Nat} (hx : x ∈ (handleEvent lockOk e p o).1) : x ∈ p := by
  cases he : e.id with
  | none => simp only [handleEvent, he] at hx; exact hx
  | some i =>
    simp only [handleEvent, he] at hx
    by_cases hi : i = ""
    · simp only [if_pos hi] at hx; exact hx
    · simp only [if_neg hi] at hx
      cases hl : (if lockOk then lookupPending i p else none) with
      | none => simp only [hl] at hx; exact hx
      | some c => simp only [hl] at hx; exact mem_removeKey hx

lemma handleEvent_outcome_unchanged (lockOk : Bool) (e : DaemonEvent)
    (p : List (String × Nat)) (o : List (Nat × Except DaemonError DaemonEvent))
    (i : String) (hid : e.id = some i) (hnone : lookupPending i p = none) :
    (handleEvent lockOk e p o).2 = o := by
  simp only [handleEvent, hid]
  by_cases hi : i = ""
  · simp only [if_pos hi]
  · simp only [if_neg hi]
    cases lockOk with
    | false => rfl
    | true => simp [hnone]

lemma lookup_none_step (i : String) (s : CorrState) (a : Action)
    (h : lookupPending i s.pending = none)
    (ha : ∀ c, a ≠ Action.register c i) :
    lookupPending i (step s a).pending = none := by
  cases a with
  | register c i' =>
    have hne : i' ≠ i := by
      intro he; exact ha c (by rw [he])
    rw [lookupPending_eq_none] at h ⊢
    intro x hx
    rcases List.mem_cons.mp hx with hx | hx
    · rw [hx]; exact hne
    · exact h x (mem_removeKey hx)
  | reply e lockOk =>
    rw [lookupPending_eq_none] at h ⊢
    intro x hx
    exact h x (handleEvent_pending_subset _ _ _ _ hx)
  | timeout c i' =>
    rw [lookupPending_eq_none] at h ⊢
    intro x hx
    exact h x (mem_removeKey hx)
  | sweep lockOk =>
    cases lockOk with
    | false => exact h
    | true =>
      rw [lookupPending_eq_none]
      intro x hx
      simp [step] at hx

lemma lookup_none_run (i : String) (tr : List Action) (s : CorrState)
    (h : lookupPending i s.pending = none)
    (htr : ∀ c, Action.register c i ∉ tr) :
    lookupPending i (run s tr).pending = none := by
  induction tr generalizing s with
  | nil => exact h
  | cons a tl ih =>
    have hstep : lookupPending i (step s a).pending = none :=
      lookup_none_step i s a h
        (fun c he => htr c (by rw [he]; exact List.mem_cons_self _ _))
    exact ih (step s a) hstep (fun c hmem => htr c (List.mem_cons_of_mem _ hmem))

/-- C2: the await deadline is 30 seconds; on timeout
`send_command_async` removes the command's entry from the
pending-response table and returns `Timeout`; and as long as the id is
not re-registered, a reply for that id arriving afterwards changes no
caller's outcome (it is dropped from the correlation path — never
delivered to the caller that timed out). -/
theorem timeout_expires_and_late_reply_dropped
    (c : Nat) (i : String) (s : CorrState) (tr : List Action)
    (e : DaemonEvent) (lockOk : Bool)
    (hid : e.id = some i)
    (hnoreg : ∀ c', Action.register c' i ∉ tr) :
    awaitTimeoutSecs = 30 ∧
    awaitResult WaitOutcome.timedOut = Except.error DaemonError.Timeout ∧
    lookupPending i (step s (.timeout c i)).pending = none ∧
    (c, Except.error DaemonError.Timeout) ∈ (step s (.timeout c i)).outcome ∧
    (step (run (step s (.timeout c i)) tr) (.reply e lockOk)).outcome
      = (run (step s (.timeout c i)) tr).outcome := by
  refine ⟨rfl, rfl, lookupPending_removeKey_self i s.pending, ?_, ?_⟩
  · simp [step]
  · have h0 : lookupPending i (step s (.timeout c i)).pending = none :=
      lookupPending_removeKey_self i s.pending
    have h1 : lookupPending i (run (step s (.timeout c i)) tr).pending = none :=
      lookup_none_run i tr _ h0 hnoreg
    exact handleEvent_outcome_unchanged lockOk e _ _ i hid h1

/-- Witness for C2: one pending request times out; the late reply for
the same id is dropped. -/
theorem timeout_expires_and_late_reply_dropped_witness :
    awaitTimeoutSecs = 30 ∧
    awaitResult WaitOutcome.timedOut = Except.error DaemonError.Timeout ∧
    lookupPending "a" (step ⟨[("a", 0)], []⟩ (.timeout 0 "a")).pending = none ∧
    (0, Except.error DaemonError.Timeout) ∈ (step ⟨[("a", 0)], []⟩ (.timeout 0 "a")).outcome ∧
    (step (run (step ⟨[("a", 0)], []⟩ (.timeout 0 "a")) [])
        (.reply ⟨"evt", "r", some "a", Json.null⟩ true)).outcome
      = (run (step ⟨[("a", 0)], []⟩ (.timeout 0 "a")) []).outcome :=
  timeout_expires_and_late_reply_dropped 0 "a" ⟨[("a", 0)], []⟩ []
    ⟨"evt", "r", some "a", Json.null⟩ true rfl
    (fun _ h => absurd h (List.not_mem_nil _))

/-! ## Teardown, spawn and status claims -/

/-- A running bridge with one outstanding request awaiting its reply. -/
def s3 : BridgeState := ⟨some 1, some 1, [("a", 0)], [], some (), [1]⟩

/-- C3 (code-bug evidence): `stop` leaves the outstanding entry in the
pending-response table and delivers nothing to its caller — no
`NotRunning` failure is produced at teardown — because the monitor
thread spawned to drain the table drops `shutdown_rx` immediately and
performs its sweep right after `spawn`, when the table is still empty
(last conjunct). -/
theorem stop_leaves_outstanding_requests_unfailed :
    (stopBridge s3).1 = Except.ok () ∧
    (stopBridge s3).2.pending = [("a", 0)] ∧
    (stopBridge s3).2.outcome = [] ∧
    (monitorSweep true (spawnBridge BridgeState.new (Except.ok 1)).2).outcome = [] :=
  ⟨rfl, rfl, rfl, rfl⟩

/-- C6: with a child already owned, `spawn` fails with `AlreadyRunning`
and leaves the bridge — the owned handle and the list of launched
processes included — unchanged; and, while that child has not been
observed to exit, the facade's `start_daemon` returns an error
response, launches no second process and keeps the handle. -/
theorem spawn_when_already_running
    (s : BridgeState) (pid : Nat) (osr : Except String Nat) (pr : PollResult)
    (fs : String → Option FileKind) (rd : Option String) (os : OS) (arch : Arch)
    (ed : Option String)
    (hchild : s.child = some pid) (hpr : pr ≠ PollResult.exited) :
    spawnBridge s osr = (Except.error DaemonError.AlreadyRunning, s) ∧
    (startDaemon s .stillRunning fs rd os arch ed osr).1.error
      = some "Daemon is already running" ∧
    (startDaemon s pr fs rd os arch ed osr).1.success = false ∧
    (startDaemon s pr fs rd os arch ed osr).2.child = some pid ∧
    (startDaemon s pr fs rd os arch ed osr).2.spawned = s.spawned := by
  have hspawn : spawnBridge s osr = (Except.error DaemonError.AlreadyRunning, s) := by
    simp [spawnBridge, hchild]
  have hmsg : (startDaemon s .stillRunning fs rd os arch ed osr).1.error
      = some "Daemon is already running" := by
    simp [startDaemon, isRunning, hchild, CommandResponse.mkError]
  have hsd : (startDaemon s pr fs rd os arch ed osr).1.success = false ∧
      (startDaemon s pr fs rd os arch ed osr).2 = s := by
    cases pr with
    | exited => exact absurd rfl hpr
    | stillRunning =>
      simp [startDaemon, isRunning, hchild, CommandResponse.mkError]
    | pollError =>
      cases hf : findDaemonBinary fs rd os arch ed with
      | error e =>
        simp [startDaemon, isRunning, hchild, hf, CommandResponse.mkError]
      | ok p =>
        simp [startDaemon, isRunning, hchild, hf, hspawn, CommandResponse.mkError]
  refine ⟨hspawn, hmsg, hsd.1, ?_, ?_⟩
  · rw [hsd.2]; exact hchild
  · rw [hsd.2]

/-- Witness for C6 at a concrete running bridge. -/
theorem spawn_when_already_running_witness :
    spawnBridge ⟨some 1, some 1, [], [], some (), [1]⟩ (Except.ok 2)
      = (Except.error DaemonError.AlreadyRunning, ⟨some 1, some 1, [], [], some (), [1]⟩) ∧
    (startDaemon ⟨some 1, some 1, [], [], some (), [1]⟩ .stillRunning
        (fun _ => none) none .linux .x86_64 none (Except.ok 2)).1.error
      = some "Daemon is already running" ∧
    (startDaemon ⟨some 1, some 1, [], [], some (), [1]⟩ .stillRunning
        (fun _ => none) none .linux .x86_64 none (Except.ok 2)).1.success = false ∧
    (startDaemon ⟨some 1, some 1, [], [], some (), [1]⟩ .stillRunning
        (fun _ => none) none .linux .x86_64 none (Except.ok 2)).2.child = some 1 ∧
    (startDaemon ⟨some 1, some 1, [], [], some (), [1]⟩ .stillRunning
        (fun _ => none) none .linux .x86_64 none (Except.ok 2)).2.spawned = [1] :=
  spawn_when_already_running ⟨some 1, some 1, [], [], some (), [1]⟩ 1 (Except.ok 2)
    .stillRunning (fun _ => none) none .linux .x86_64 none rfl (by decide)

/-- C10: a poll error makes `is_running` report `false` while leaving
the owned child and stdin handles in place — so an immediately
following `spawn` still fails with `AlreadyRunning` — unlike the
child-has-exited case, which clears both handles. -/
theorem poll_error_keeps_handles
    (s : BridgeState) (pid : Nat) (osr : Except String Nat)
    (hchild : s.child = some pid) :
    isRunning s .pollError = (false, s) ∧
    spawnBridge (isRunning s .pollError).2 osr
      = (Except.error DaemonError.AlreadyRunning, s) ∧
    (isRunning s .exited).2.child = none ∧
    (isRunning s .exited).2.stdin = none := by
  have h1 : isRunning s .pollError = (false, s) := by simp [isRunning, hchild]
  refine ⟨h1, ?_, ?_, ?_⟩
  · rw [h1]; simp [spawnBridge, hchild]
  · simp [isRunning, hchild]
  · simp [isRunning, hchild]

/-- Witness for C10. -/
theorem poll_error_keeps_handles_witness :
    isRunning ⟨some 7, some 7, [], [], some (), [7]⟩ .pollError
      = (false, ⟨some 7, some 7, [], [], some (), [7]⟩) ∧
    spawnBridge (isRunning ⟨some 7, some 7, [], [], some (), [7]⟩ .pollError).2 (Except.ok 8)
      = (Except.error DaemonError.AlreadyRunning, ⟨some 7, some 7, [], [], some (), [7]⟩) ∧
    (isRunning ⟨some 7, some 7, [], [], some (), [7]⟩ .exited).2.child = none ∧
    (isRunning ⟨some 7, some 7, [], [], some (), [7]⟩ .exited).2.stdin = none :=
  poll_error_keeps_handles ⟨some 7, some 7, [], [], some (), [7]⟩ 7 (Except.ok 8) rfl

/-! ## Binary discovery claims -/

lemma findFirstExisting_eq_find? (fs : String → Option FileKind) (l : List String) :
    findFirstExisting fs l =
      ((l.find? (pathExists fs)).elim
        (Except.error (DaemonError.BinaryNotFound
          "daemon binary not found in any expected location"))
        Except.ok) := by
  induction l with
  | nil => rfl
  | cons p rest ih =>
    by_cases hp : pathExists fs p
    · simp [findFirstExisting, hp, List.find?_cons_of_pos]
    · simp only [findFirstExisting, if_neg hp, List.find?_cons_of_neg _ (by simpa using hp)]
      exact ih

/-- C5 (amended): the candidate list follows exactly the specified
priority order — resource-directory names, the same two names under a
`binaries` subdirectory, the running executable's directory, the
current working directory, then the dist development directories — and
`find_daemon_binary` returns the first candidate that *exists* (as any
filesystem entity: Rust `Path::exists`, which also accepts
directories, not only regular files), failing with `BinaryNotFound`
when no candidate exists. -/
theorem find_daemon_binary_first_existing
    (fs : String → Option FileKind) (rd : Option String) (os : OS) (arch : Arch)
    (ed : Option String) :
    getBinaryCandidates rd os arch ed =
      (rd.elim [] (fun r =>
        [pathJoin r (binaryName os), pathJoin r (archBinary os arch),
         pathJoin (pathJoin r "binaries") (binaryName os),
         pathJoin (pathJoin r "binaries") (archBinary os arch)])) ++
      (ed.elim [] (fun x =>
        [pathJoin x (binaryName os), pathJoin x (archBinary os arch)])) ++
      [binaryName os, archBinary os arch] ++
      [pathJoin "../../dist" (archBinary os arch), pathJoin "../dist" (archBinary os arch),
       pathJoin "dist" (archBinary os arch)] ∧
    findDaemonBinary fs rd os arch ed =
      ((getBinaryCandidates rd os arch ed).find? (pathExists fs)).elim
        (Except.error (DaemonError.BinaryNotFound
          "daemon binary not found in any expected location"))
        Except.ok := by
  refine ⟨?_, findFirstExisting_eq_find? fs _⟩
  cases rd <;> cases ed <;> rfl

/-- A filesystem holding a single *directory* named `daemon` in the
current working directory. -/
def fsDirOnly : String → Option FileKind :=
  fun p => if p = "daemon" then some FileKind.dir else none

/-- C5 counterexample: on `fsDirOnly`, `find_daemon_binary` returns
the path `daemon` although it is a directory, not a regular file; the
claim's regular-file reading would instead fail with
`BinaryNotFound`. -/
theorem find_daemon_binary_accepts_directory :
    findDaemonBinary fsDirOnly none OS.linux Arch.x86_64 none = Except.ok "daemon" ∧
    fsDirOnly "daemon" = some FileKind.dir ∧
    findDaemonBinarySpecFile fsDirOnly none OS.linux Arch.x86_64 none
      = Except.error (DaemonError.BinaryNotFound
          "daemon binary not found in any expected location") :=
  ⟨rfl, rfl, rfl⟩

/-! ## Wire-codec claims -/

/-- A concrete command, as in the scenario of spec §8. -/
def cmdRT : DaemonCommand :=
  ⟨"cmd", "dial", "abc", .obj [("addr", .str "127.0.0.1:9000")]⟩

/-- C4 counterexample: serializing `cmdRT` with the wire codec and
deserializing the resulting line back as an event does *not* succeed —
the command encoding has no `evt` (or `data`) field, so the decode
fails instead of yielding an event with a matching id. -/
theorem encode_decode_fails :
    fromStrEvent (commandToString cmdRT) = Except.error "missing field evt" := rfl

/-- C4 (amended): for every command, decoding its own serialized form
as an event fails with a `missing field evt` decode error (the command
encoding carries `cmd`/`params`, not the event's required
`evt`/`data`); the correlation identity holds instead for a well-formed
reply: an event object whose `id` field carries the command's id
decodes to an `Event` whose `id` equals the `Command`'s `id`. -/
theorem encode_decode_corrected (c : DaemonCommand) (ename : String) (d : Json) :
    fromJsonEvent (toJsonCommand c) = Except.error "missing field evt" ∧
    fromJsonEvent (.obj [("type", .str "evt"), ("evt", .str ename),
        ("id", .str c.id), ("data", d)])
      = Except.ok ⟨"evt", ename, some c.id, d⟩ :=
  ⟨rfl, rfl⟩

/-! ## Stdout reader claims -/

/-- C7: with the event sink open, the stdout reader forwards every
successfully decoded event to the event sink, in order — whether or
not the event carried an id, and whether or not that id matched a
pending request. -/
theorem decoded_events_all_forwarded
    (entries : List (ReadResult × Bool)) (st : ReaderState)
    (hopen : st.sinkOpen = true) :
    (readStdout entries st).sink = st.sink ++ decodedEvents entries := by
  induction entries generalizing st with
  | nil => simp [readStdout, decodedEvents]
  | cons hd tl ih =>
    obtain ⟨rr, lockOk⟩ := hd
    cases rr with
    | ioError => simp [readStdout, decodedEvents]
    | ok l =>
      by_cases hl : l = ""
      · subst hl
        simp only [readStdout, decodedEvents, if_pos rfl]
        exact ih st hopen
      · cases hd2 : fromStrEvent l with
        | error err =>
          simp only [readStdout, decodedEvents, if_neg hl, hd2]
          exact ih _ hopen
        | ok e =>
          simp only [readStdout, decodedEvents, if_neg hl, hd2, hopen, if_true]
          rw [ih _ rfl]
          simp

/-- One decodable event line for the C7 witness. -/
def lineW : String :=
  "\x7b\"type\":\"evt\",\"evt\":\"peer_joined\",\"data\":\x7b\"peer\":\"x\"\x7d\x7d"

/-- Witness for C7 on a one-line stream read by a fresh reader. -/
theorem decoded_events_all_forwarded_witness :
    (readStdout [(.ok lineW, true)] ⟨[], [], true, [], 0⟩).sink
      = ([] : List DaemonEvent) ++ decodedEvents [(.ok lineW, true)] :=
  decoded_events_all_forwarded [(.ok lineW, true)] ⟨[], [], true, [], 0⟩ rfl

/-- C8: a non-empty line that fails to decode only increments the
decode-failure log and the loop goes on with everything else — the
pending table and the callers' deliveries included — untouched; an
empty line is skipped without being counted as a decode failure. -/
theorem bad_and_empty_lines_skipped
    (l : String) (err : String) (b b' : Bool)
    (rest : List (ReadResult × Bool)) (st : ReaderState)
    (hne : l ≠ "") (hdec : fromStrEvent l = Except.error err) :
    readStdout ((.ok l, b) :: rest) st
      = readStdout rest { st with decodeFailures := st.decodeFailures + 1 } ∧
    readStdout ((.ok "", b') :: rest) st = readStdout rest st := by
  constructor
  · simp only [readStdout, if_neg hne, hdec]
  · rfl

/-- Witness for C8 with the undecodable line `x`. -/
theorem bad_and_empty_lines_skipped_witness :
    readStdout [(.ok "x", true)] ⟨[], [], true, [], 0⟩
      = readStdout [] ⟨[], [], true, [], 1⟩ ∧
    readStdout [(.ok "", false)] ⟨[], [], true, [], 0⟩
      = readStdout [] ⟨[], [], true, [], 0⟩ :=
  bad_and_empty_lines_skipped "x" "unexpected character" true false []
    ⟨[], [], true, [], 0⟩ (by decide) rfl

/-! ## Field-requirement claim -/

lemma eventFieldsLoop_ok_keys
    (fields : List (String × Json)) (mt? ev? : Option String)
    (id? : Option (Option String)) (da? : Option Json) (e : DaemonEvent)
    (h : eventFieldsLoop fields mt? ev? id? da? = Except.ok e) :
    (mt?.isSome = true ∨ "type" ∈ fields.map Prod.fst) ∧
    (ev?.isSome = true ∨ "evt" ∈ fields.map Prod.fst) ∧
    (da?.isSome = true ∨ "data" ∈ fields.map Prod.fst) := by
  induction fields generalizing mt? ev? id? da? with
  | nil =>
    cases mt? with
    | none => exact Except.noConfusion h
    | some mt =>
      cases ev? with
      | none => exact Except.noConfusion h
      | some ev =>
        cases da? with
        | none => exact Except.noConfusion h
        | some da => exact ⟨Or.inl rfl, Or.inl rfl, Or.inl rfl⟩
  | cons kv rest ih =>
    obtain ⟨k, v⟩ := kv
    simp only [eventFieldsLoop] at h
    by_cases hk : k = "type"
    · rw [if_pos hk] at h
      cases mt? with
      | some mt => exact Except.noConfusion h
      | none =>
        cases v with
        | str s =>
          have hr := ih (some s) ev? id? da? h
          exact ⟨Or.inr (by simp [hk]),
            hr.2.1.imp_right (fun hm => by simp [hm]),
            hr.2.2.imp_right (fun hm => by simp [hm])⟩
        | null => exact Except.noConfusion h
        | bool b => exact Except.noConfusion h
        | num n => exact Except.noConfusion h
        | arr xs => exact Except.noConfusion h
        | obj fs => exact Except.noConfusion h
    · rw [if_neg hk] at h
      by_cases hk2 : k = "evt"
      · rw [if_pos hk2] at h
        cases ev? with
        | some ev => exact Except.noConfusion h
        | none =>
          cases v with
          | str s =>
            have hr := ih mt? (some s) id? da? h
            exact ⟨hr.1.imp_right (fun hm => by simp [hm]),
              Or.inr (by simp [hk2]),
              hr.2.2.imp_right (fun hm => by simp [hm])⟩
          | null => exact Except.noConfusion h
          | bool b => exact Except.noConfusion h
          | num n => exact Except.noConfusion h
          | arr xs => exact Except.noConfusion h
          | obj fs => exact Except.noConfusion h
      · rw [if_neg hk2] at h
        by_cases hk3 : k = "id"
        · rw [if_pos hk3] at h
          cases id? with
          | some idv => exact Except.noConfusion h
          | none =>
            cases v with
            | null =>
              have hr := ih mt? ev? (some none) da? h
              exact ⟨hr.1.imp_right (fun hm => by simp [hm]),
                hr.2.1.imp_right (fun hm => by simp [hm]),
                hr.2.2.imp_right (fun hm => by simp [hm])⟩
            | str s =>
              have hr := ih mt? ev? (some (some s)) da? h
              exact ⟨hr.1.imp_right (fun hm => by simp [hm]),
                hr.2.1.imp_right (fun hm => by simp [hm]),
                hr.2.2.imp_right (fun hm => by simp [hm])⟩
            | bool b => exact Except.noConfusion h
            | num n => exact Except.noConfusion h
            | arr xs => exact Except.noConfusion h
            | obj fs => exact Except.noConfusion h
        · rw [if_neg hk3] at h
          by_cases hk4 : k = "data"
          · rw [if_pos hk4] at h
            cases da? with
            | some da => exact Except.noConfusion h
            | none =>
              have hr := ih mt? ev? id? (some v) h
              exact ⟨hr.1.imp_right (fun hm => by simp [hm]),
                hr.2.1.imp_right (fun hm => by simp [hm]),
                Or.inr (by simp [hk4])⟩
          · rw [if_neg hk4] at h
            have hr := ih mt? ev? id? da? h
            exact ⟨hr.1.imp_right (fun hm => by simp [hm]),
              hr.2.1.imp_right (fun hm => by simp [hm]),
              hr.2.2.imp_right (fun hm => by simp [hm])⟩

/-- C9: a successful decode requires the `type`, `evt` and `data`
fields all to be present (first conjunct); a line missing only `id`
decodes successfully with `id` absent; a line missing `data`, or
missing `evt`, is a decode error. -/
theorem decode_field_requirements
    (t n i : String) (d : Json) (j : Json) (e : DaemonEvent)
    (h : fromJsonEvent j = Except.ok e) :
    (∃ fields, j = Json.obj fields ∧ "type" ∈ fields.map Prod.fst ∧
      "evt" ∈ fields.map Prod.fst ∧ "data" ∈ fields.map Prod.fst) ∧
    fromJsonEvent (.obj [("type", .str t), ("evt", .str n), ("data", d)])
      = Except.ok ⟨t, n, none, d⟩ ∧
    fromJsonEvent (.obj [("type", .str t), ("evt", .str n), ("id", .str i)])
      = Except.error "missing field data" ∧
    fromJsonEvent (.obj [("type", .str t), ("id", .str i), ("data", d)])
      = Except.error "missing field evt" := by
  refine ⟨?_, rfl, rfl, rfl⟩
  cases j with
  | obj fields =>
    have hr := eventFieldsLoop_ok_keys fields none none none none e h
    refine ⟨fields, rfl, ?_, ?_, ?_⟩
    · rcases hr.1 with h1 | h1
      · exact absurd h1 (by simp)
      · exact h1
    · rcases hr.2.1 with h1 | h1
      · exact absurd h1 (by simp)
      · exact h1
    · rcases hr.2.2 with h1 | h1
      · exact absurd h1 (by simp)
      · exact h1
  | null => exact Except.noConfusion h
  | bool b => exact Except.noConfusion h
  | num m => exact Except.noConfusion h
  | str s => exact Except.noConfusion h
  | arr xs => exact Except.noConfusion h

/-- Witness for C9 at a concrete decodable object. -/
theorem decode_field_requirements_witness :
    (∃ fields, Json.obj [("type", Json.str "evt"), ("evt", Json.str "ready"),
        ("data", Json.null)] = Json.obj fields ∧
      "type" ∈ fields.map Prod.fst ∧ "evt" ∈ fields.map Prod.fst ∧
      "data" ∈ fields.map Prod.fst) ∧
    fromJsonEvent (.obj [("type", .str "a"), ("evt", .str "b"), ("data", Json.null)])
      = Except.ok ⟨"a", "b", none, Json.null⟩ ∧
    fromJsonEvent (.obj [("type", .str "a"), ("evt", .str "b"), ("id", .str "c")])
      = Except.error "missing field data" ∧
    fromJsonEvent (.obj [("type", .str "a"), ("id", .str "c"), ("data", Json.null)])
      = Except.error "missing field evt" :=
  decode_field_requirements "a" "b" "c" Json.null
    (Json.obj [("type", Json.str "evt"), ("evt", Json.str "ready"), ("data", Json.null)])
    ⟨"evt", "ready", none, Json.null⟩ rfl

end Kamune
